import Mathlib

/-!
Verification development for the bibmgr organize engine
(`src/bibmgr/library_model.py`, `src/bibmgr/utilities.py`, and the `org`
pipeline in `src/bibmgr/bibmgr.py`).

The Python code is shallowly embedded:

* strings are Lean `String`s restricted to ASCII data (Python `str.lower` is
  modelled by the ASCII `Char.toLower`; every string handled by the tool's
  derivation code is filtered to `[a-z0-9_]` afterwards, so this is faithful
  on the data the program manipulates);
* filesystem paths are normalized path strings (no trailing slashes, no
  duplicated separators); `pathlib.Path` equality on such strings is string
  equality, and `str(p.resolve())` is modelled as the identity, i.e. paths in
  the model are taken to be already canonical;
* the filesystem is a flat map from path to node (regular file or directory);
* Python exceptions (the `IndexError` reachable from
  `utilities.get_extension` and `Library._entry_string`) are modelled with
  `Option`/`Except`: a `none`/`.error` result is an uncaught exception;
* the in-memory database (`bibtexparser.Library`) is an ordered list of
  entries together with the duplicate-key behaviour of its `add` method:
  an entry added under an already-present key is shunted aside as a failed
  block (`DuplicateBlockKeyBlock`) instead of being appended, and the
  key index (`entries_dict`) holds the keys the entries had when they were
  added, so it is unaffected by later in-place `entry.key` mutation;
* `logging` calls are modelled as an event list where a claim depends on
  them (dry-run intent reporting); purely informational skip messages that
  no claim inspects are elided.
-/

namespace Bibmgr

/-! ## String utilities (`src/bibmgr/utilities.py`) -/

/-- Characters allowed by `clean_string`:
`string.ascii_lowercase + string.digits + '_'`. -/
def validChar (c : Char) : Bool :=
  ('a' ≤ c && c ≤ 'z') || ('0' ≤ c && c ≤ '9') || c = '_'

/-- Python `str.lower` on ASCII data. -/
def pyLower (s : String) : String :=
  String.mk (s.toList.map Char.toLower)

/-- Embeds `utilities.clean_string`: lowercase, replace spaces (only the
character `' '`, as in `str.replace(' ', '_')`) with underscores, and drop
every character outside `[a-z0-9_]`.  `library_model.py` refers to this
function as `utilities.clean_string_for_key`; `clean_string` is the only
cleaning function defined in `utilities.py`. -/
def clean_string (s : String) : String :=
  String.mk
    (((s.toList.map Char.toLower).map fun c => if c = ' ' then '_' else c).filter
      validChar)

/-- Python `s[:n]` for a natural `n`. -/
def pyTake (s : String) (n : Nat) : String :=
  String.mk (s.toList.take n)

/-- Splitter with Python `str.split(sep)` semantics for a one-character
separator: `"".split(' ') = ['']`, empty pieces are kept. -/
def pySplitCharAux (sep : Char) : List Char → List Char → List String
  | [], acc => [String.mk acc.reverse]
  | c :: cs, acc =>
    if c = sep then String.mk acc.reverse :: pySplitCharAux sep cs []
    else pySplitCharAux sep cs (c :: acc)

/-- Python `s.split(sep)` for a one-character separator. -/
def pySplitChar (sep : Char) (s : String) : List String :=
  pySplitCharAux sep s.toList []

/-! ## Path model (`pathlib` fragment used by the code) -/

/-- Paths are normalized path strings. -/
abbrev Path := String

/-- Python `Path(p).name` on a normalized path. -/
def pathName (p : Path) : String :=
  ((pySplitChar '/' p).getLast?).getD ""

/-- Python `Path(p).parent` on a normalized path. -/
def pathParent (p : Path) : Path :=
  let comps := (pySplitChar '/' p).dropLast
  if comps = [] then "." else if comps = [""] then "/" else String.intercalate "/" comps

/-- Python `Path(p).joinpath(s)` for a non-empty relative component. -/
def joinPath (p : Path) (s : String) : Path :=
  p ++ "/" ++ s

/-- Python `str.lstrip('.')`. -/
def stripLeadingDots : List Char → List Char
  | '.' :: cs => stripLeadingDots cs
  | cs => cs

/-- Python `Path(p).suffixes` (CPython implementation: empty when the name
ends with a dot, otherwise the dot-separated pieces of the name after
stripping leading dots, minus the first piece). -/
def pySuffixes (p : Path) : List String :=
  let name := pathName p
  if name.toList.getLast? = some '.' then []
  else
    ((pySplitChar '.' (String.mk (stripLeadingDots name.toList))).tail).map
      (fun s => "." ++ s)

/-- Python `Path(p).stem`: the name without its last suffix (CPython:
strip `name[i:]` when `0 < i < len(name) - 1` for the last dot index `i`). -/
def pyStem (p : Path) : String :=
  let name := pathName p
  let chars := name.toList
  let dotIdxs := (List.range chars.length).filter fun i => chars.get? i = some '.'
  match dotIdxs.getLast? with
  | some i => if 0 < i ∧ i + 1 < chars.length then String.mk (chars.take i) else name
  | none => name

/-- Embeds `utilities.get_extension`.  `path.suffixes[-1]` raises
`IndexError` when the name has no extension; this is modelled by `none`. -/
def get_extension (p : Path) : Option String :=
  let extensions := String.join (pySuffixes p)
  if extensions = ".tar.gz" ∨ extensions = ".tar.bz2" then some extensions
  else (pySuffixes p).getLast?

/-! ## Data model

Entries as produced by `bibtexparser.parse_file` with the `SeparateCoAuthors`
and `SplitNameParts` middlewares: the `author` field holds a list of
name-part records (only the `last` list is read by the code), every other
field holds a string. -/

/-- Name parts of one author (`bibtexparser.middlewares.NameParts`); only the
`last` component is used by `library_model.py`. -/
structure NameParts where
  last : List String
deriving DecidableEq, Repr

/-- Value of one BibTeX field. -/
inductive FieldValue where
  | str (s : String)
  | names (l : List NameParts)
deriving DecidableEq, Repr

/-- One BibTeX entry (`bibtexparser.model.Entry`). -/
structure Entry where
  key : String
  entry_type : String
  fields : List (String × FieldValue)
deriving DecidableEq, Repr

/-- First-match association lookup (Python dict access; field keys are
unique in an entry). -/
def lookupField : List (String × FieldValue) → String → Option FieldValue
  | [], _ => none
  | (g, v) :: t, f => if f = g then some v else lookupField t f

/-- Python `entry[f]` lookup, as an `Option`. -/
def Entry.getField (e : Entry) (f : String) : Option FieldValue :=
  lookupField e.fields f

/-- Python `f in entry`. -/
def Entry.hasField (e : Entry) (f : String) : Bool :=
  (e.getField f).isSome

/-- String value of a field; `none` when the field is absent (a field
holding a name list where the code expects a string never occurs in the
pipeline's data flow). -/
def Entry.getStr (e : Entry) (f : String) : Option String :=
  match e.getField f with
  | some (.str s) => some s
  | _ => none

/-- Replace the value of field `f` in place, or append it (Python
`entry[f] = v`). -/
def setFieldAux (f : String) (v : FieldValue) :
    List (String × FieldValue) → List (String × FieldValue)
  | [] => [(f, v)]
  | (g, w) :: rest =>
    if g = f then (g, v) :: rest else (g, w) :: setFieldAux f v rest

/-- Python `entry[f] = v`. -/
def Entry.setField (e : Entry) (f : String) (v : FieldValue) : Entry :=
  { e with fields := setFieldAux f v e.fields }

/-- Python `entry[f] = s` for a string value. -/
def Entry.setStr (e : Entry) (f : String) (s : String) : Entry :=
  e.setField f (.str s)

/-! ## Filesystem model -/

/-- Content of a regular file: either opaque bytes or a serialized database
(the bibtexparser codec is an external collaborator, so serialization is
kept abstract: a written database is stored as the entry list itself). -/
inductive FileContent where
  | raw (s : String)
  | bib (entries : List Entry)
deriving DecidableEq, Repr

/-- One filesystem node. -/
inductive FsNode where
  | file (content : FileContent)
  | dir
deriving DecidableEq, Repr

/-- Flat filesystem: a finite map from (canonical) path to node. -/
structure FS where
  nodes : List (Path × FsNode)
deriving DecidableEq, Repr

/-- First-match association lookup over filesystem nodes. -/
def lookupNodes : List (Path × FsNode) → Path → Option FsNode
  | [], _ => none
  | (k, v) :: t, p => if p = k then some v else lookupNodes t p

/-- Removal of all nodes at a path. -/
def removeNodes : List (Path × FsNode) → Path → List (Path × FsNode)
  | [], _ => []
  | (k, v) :: t, p => if k = p then removeNodes t p else (k, v) :: removeNodes t p

/-- Node at a path. -/
def FS.lookup (fs : FS) (p : Path) : Option FsNode :=
  lookupNodes fs.nodes p

/-- Python `Path(p).exists()`. -/
def FS.pathExists (fs : FS) (p : Path) : Bool :=
  (fs.lookup p).isSome

/-- Python `Path(p).is_file()`. -/
def FS.isFile (fs : FS) (p : Path) : Bool :=
  match fs.lookup p with
  | some (.file _) => true
  | _ => false

/-- Remove a path (used for `unlink(missing_ok=True)`; unlinking a
directory, which CPython refuses, does not occur in the pipeline's flow). -/
def FS.remove (fs : FS) (p : Path) : FS :=
  ⟨removeNodes fs.nodes p⟩

/-- Create or overwrite a node. -/
def FS.insert (fs : FS) (p : Path) (n : FsNode) : FS :=
  ⟨(p, n) :: (fs.remove p).nodes⟩

/-- Python `Path(p).mkdir()` (the missing-parent error case is outside the
model; every claim exercising `mkdir` does so with an existing parent). -/
def FS.mkdir (fs : FS) (p : Path) : FS :=
  fs.insert p .dir

/-- `shutil.move` / `Path.rename` to a non-existing destination. -/
def FS.move (fs : FS) (old : Path) (new : Path) : FS :=
  match fs.lookup old with
  | some n => (fs.remove old).insert new n
  | none => fs

/-! ## Database model (`bibtexparser.Library`)

`Library.add` shunts an entry whose key is already present into the failed
blocks (`DuplicateBlockKeyBlock`) instead of appending it to the entries,
and `entries_dict` is the index `_entries_by_key` maintained at add time:
its key set is the list of keys the entries had when added. -/

/-- In-memory database. -/
structure Library where
  entries : List Entry := []
  failed : List Entry := []
deriving DecidableEq, Repr

/-- Key set of `entries_dict` (keys at add time; the embedding is pure, so
these are the keys the entries currently carry). -/
def Library.keys (db : Library) : List String :=
  db.entries.map (·.key)

/-- `bibtexparser.Library.add` for a single entry. -/
def Library.add (db : Library) (e : Entry) : Library :=
  if e.key ∈ db.keys then { db with failed := db.failed ++ [e] }
  else { db with entries := db.entries ++ [e] }

/-! ## Configuration and pipeline state -/

/-- Per-run settings of `library_model.Library.__init__` (the
serialization-only `field_order` is not part of the model). -/
structure Lib where
  bibtex_file : Path
  storage_path : Path
  default_group : String
  filename_words : Nat
  filename_length : Nat
  key_length : Nat
  mandatory_fields : List String
  dry_run : Bool
deriving DecidableEq, Repr

/-- `Library.bibtex_bak_file`. -/
def Lib.bibtex_bak_file (lib : Lib) : Path :=
  lib.bibtex_file ++ ".bak"

/-- Logged event. -/
inductive Event where
  | info (msg : String)
  | warning (msg : String)
  | debug (msg : String)
  | dryRun (msg : String)
deriving DecidableEq, Repr

/-- Mutable state threaded through the pipeline stages. -/
structure OrgState where
  db : Library
  fs : FS
  events : List Event := []
deriving DecidableEq, Repr

/-- Result of a stage that can raise an uncaught exception: the state at the
moment of the crash, and whether the stage completed (`ok = false` models an
exception propagating out of the method and aborting the batch). -/
structure StageResult where
  st : OrgState
  ok : Bool
deriving DecidableEq, Repr

/-! ## Derivation and validity helpers (`library_model.py`) -/

/-- Embeds `Library._entry_string`.  `.error ()` models an uncaught Python
exception: `entry['author'][0].last[0]` raises `IndexError` when the first
author has no last-name part (and an `author`/`year`/`title` field holding a
value of the wrong shape would likewise raise).  `.ok none` is the `None`
result returned when no component was produced. -/
def entryString (e : Entry) (max_length : Nat) (words_from_title : Option Nat) :
    Except Unit (Option String) :=
  let authorComp : Except Unit (List String) :=
    match e.getField "author" with
    | some (.names parts) =>
      match parts with
      | [] => .ok []
      | p :: _ =>
        match p.last with
        | [] => .error ()
        | ln :: _ => .ok [clean_string ln]
    | some (.str s) => if s = "" then .ok [] else .error ()
    | none => .ok []
  let yearComp : Except Unit (List String) :=
    match e.getField "year" with
    | some (.str y) => if y ≠ "" then .ok [clean_string y] else .ok []
    | some (.names _) => .error ()
    | none => .ok []
  let titleComp : Except Unit (List String) :=
    match e.getField "title" with
    | some (.str t) =>
      if t ≠ "" then
        match words_from_title with
        | none => .ok [clean_string t]
        | some w =>
          .ok [clean_string (String.intercalate "_" ((pySplitChar ' ' t).take w))]
      else .ok []
    | some (.names _) => .error ()
    | none => .ok []
  match authorComp, yearComp, titleComp with
  | .ok a, .ok y, .ok t =>
    let string_components := a ++ y ++ t
    if string_components.length > 0 then
      .ok (some (pyTake (String.intercalate "_" string_components) max_length))
    else
      .ok none
  | _, _, _ => .error ()

/-- Embeds `Library._entry_file_is_valid`: the entry has a `file` field, it
is non-empty, the path exists, and it is a regular file. -/
def entryFileIsValid (fs : FS) (e : Entry) : Bool :=
  match e.getStr "file" with
  | none => false
  | some f =>
    if f = "" then false
    else if ¬ fs.pathExists f then false
    else fs.isFile f

/-- Embeds `Library._move_file`.  Under dry run the intent is reported and
nothing happens; a missing or non-regular source is a logged skip; otherwise
the file is moved. -/
def moveFile (lib : Lib) (fs : FS) (old_file new_file : Path) :
    FS × List Event :=
  if lib.dry_run then
    (fs, [.dryRun ("Moving " ++ old_file ++ " to " ++ new_file ++ ".")])
  else if ¬ fs.pathExists old_file then
    (fs, [.warning (old_file ++ " does not exist. Not moving.")])
  else if ¬ fs.isFile old_file then
    (fs, [.warning (old_file ++ " is not a file. Not moving.")])
  else
    (fs.move old_file new_file,
      [.info ("Moving " ++ old_file ++ " to " ++ new_file ++ ".")])

/-! ## Pipeline stages -/

/-- Group directory of an entry: `storage_path/groups`, falling back to the
default group when the `groups` field is absent or empty. -/
def groupPathOf (lib : Lib) (e : Entry) : Path :=
  match e.getStr "groups" with
  | some g =>
    if g ≠ "" then joinPath lib.storage_path g
    else joinPath lib.storage_path lib.default_group
  | none => joinPath lib.storage_path lib.default_group

/-- One entry of `create_missing_groups`: create the entry's group directory
if missing, or only report the intent under dry run. -/
def createMissingGroupsEntry (lib : Lib) (acc : FS × List Event) (e : Entry) :
    FS × List Event :=
  let fs := acc.1
  let events := acc.2
  let group_path := groupPathOf lib e
  if ¬ fs.pathExists group_path then
    if lib.dry_run then
      (fs, events ++ [.dryRun ("Creating " ++ group_path ++ ".")])
    else
      (fs.mkdir group_path, events ++ [.info ("Creating " ++ group_path ++ ".")])
  else
    (fs, events ++ [.debug ("Directory " ++ group_path ++ " already exists. Skipping.")])

/-- Embeds `Library.create_missing_groups`. -/
def createMissingGroups (lib : Lib) (st : OrgState) : OrgState :=
  let r := st.db.entries.foldl (createMissingGroupsEntry lib) (st.fs, st.events)
  { st with fs := r.1, events := r.2 }

/-- One entry of `create_missing_fields`: fill each absent mandatory field
(`author` with an empty name list, `groups` with the default group, any
other field with the empty string). -/
def createMissingFieldsEntry (lib : Lib) (e : Entry) : Entry :=
  lib.mandatory_fields.foldl
    (fun e field =>
      if ¬ e.hasField field then
        if field = "author" then e.setField "author" (.names [])
        else if field = "groups" then e.setStr "groups" lib.default_group
        else e.setStr field ""
      else e)
    e

/-- Embeds `Library.create_missing_fields`. -/
def createMissingFields (lib : Lib) (st : OrgState) : OrgState :=
  { st with
    db := { st.db with entries := st.db.entries.map (createMissingFieldsEntry lib) } }

/-- Target path computed by `rename_according_to_bib` for one entry:
`none` when the entry is skipped (invalid file, empty or `None` derived
name), `.error` when the derivation or `get_extension` raises. -/
def renameTarget (lib : Lib) (fs : FS) (e : Entry) : Except Unit (Option Path) :=
  if ¬ entryFileIsValid fs e then .ok none
  else
    match entryString e lib.filename_length (some lib.filename_words) with
    | .error _ => .error ()
    | .ok none => .ok none
    | .ok (some filename) =>
      if filename = "" then .ok none
      else
        let old_path : Path := (e.getStr "file").getD ""
        match get_extension old_path with
        | none => .error ()
        | some ext => .ok (some (joinPath (pathParent old_path) (filename ++ ext)))

/-- One entry of `rename_according_to_bib`.  `none` models an uncaught
exception; the skip branches leave the filesystem alone but the trailing
`entry['file'] = str(new_path)` runs whenever a target was computed. -/
def renameEntry (lib : Lib) (fs : FS) (e : Entry) :
    Option (Entry × FS × List Event) :=
  match renameTarget lib fs e with
  | .error _ => none
  | .ok none => some (e, fs, [])
  | .ok (some new_path) =>
    let old_path : Path := (e.getStr "file").getD ""
    if old_path = new_path then some (e.setStr "file" new_path, fs, [])
    else if fs.pathExists new_path then some (e.setStr "file" new_path, fs, [])
    else
      let r := moveFile lib fs old_path new_path
      some (e.setStr "file" new_path, r.1, r.2)

/-- Run a per-entry step over the entries in order, stopping at the first
uncaught exception (which leaves the current and remaining entries and the
filesystem as they were at that moment). -/
def runEntries (step : FS → Entry → Option (Entry × FS × List Event)) :
    List Entry → FS → List Entry × FS × List Event × Bool
  | [], fs => ([], fs, [], true)
  | e :: rest, fs =>
    match step fs e with
    | none => (e :: rest, fs, [], false)
    | some (e', fs', evs) =>
      let r := runEntries step rest fs'
      (e' :: r.1, r.2.1, evs ++ r.2.2.1, r.2.2.2)

/-- Embeds `Library.rename_according_to_bib`. -/
def renameStage (lib : Lib) (st : OrgState) : StageResult :=
  let r := runEntries (renameEntry lib) st.db.entries st.fs
  { st := { st with
      db := { st.db with entries := r.1 }
      fs := r.2.1
      events := st.events ++ r.2.2.1 }
    ok := r.2.2.2 }

/-- Groups defaulting done by `move_according_to_bib`: the `groups` field is
set to the default group when absent or empty. -/
def defaultGroups (lib : Lib) (e : Entry) : Entry :=
  if ¬ e.hasField "groups" then e.setStr "groups" lib.default_group
  else if e.getStr "groups" = some "" then e.setStr "groups" lib.default_group
  else e

/-- Destination path computed by `move_according_to_bib` for one entry
(after groups defaulting): `storage_path/groups/name`. -/
def moveTargetPath (lib : Lib) (e : Entry) : Path :=
  joinPath (joinPath lib.storage_path (((defaultGroups lib e).getStr "groups").getD ""))
    (pathName (((defaultGroups lib e).getStr "file").getD ""))

/-- One entry of `move_according_to_bib`: after the validity check the
`groups` field is defaulted when absent or empty, the destination is
`storage_path/groups/name`, and the trailing `entry['file'] = str(new_path)`
runs on the skip branches too. -/
def moveEntry (lib : Lib) (fs : FS) (e : Entry) :
    Option (Entry × FS × List Event) :=
  if ¬ entryFileIsValid fs e then some (e, fs, [])
  else
    let e1 := defaultGroups lib e
    let old_path : Path := (e1.getStr "file").getD ""
    let new_path := moveTargetPath lib e
    if old_path = new_path then some (e1.setStr "file" new_path, fs, [])
    else if fs.pathExists new_path then some (e1.setStr "file" new_path, fs, [])
    else
      let r := moveFile lib fs old_path new_path
      some (e1.setStr "file" new_path, r.1, r.2)

/-- Embeds `Library.move_according_to_bib`. -/
def moveStage (lib : Lib) (st : OrgState) : StageResult :=
  let r := runEntries (moveEntry lib) st.db.entries st.fs
  { st := { st with
      db := { st.db with entries := r.1 }
      fs := r.2.1
      events := st.events ++ r.2.2.1 }
    ok := r.2.2.2 }

/-- The `while new_key in db.entries_dict.keys(): new_key += '_dup'` loop of
`rekey_according_to_bib`, with explicit fuel.  The loop always terminates:
the candidate strings grow strictly in length, so they are pairwise
distinct, at most `keys.length` of them can be members of `keys`, and after
at most `keys.length + 1` membership tests a non-member is reached.  The
fuel `keys.length + 1` therefore never runs out. -/
def appendDupFuel (keys : List String) : Nat → String → String
  | 0, k => k
  | fuel + 1, k =>
    if k ∈ keys then appendDupFuel keys fuel (k ++ "_dup") else k

/-- Collision-resolution loop of `rekey_according_to_bib`. -/
def appendDup (keys : List String) (k : String) : String :=
  appendDupFuel keys (keys.length + 1) k

/-- New key computed by `rekey_according_to_bib` for one entry: the derived
key (existing key retained when the derivation yields `None` or the empty
string), with the `_dup` loop run only when the derived key differs from the
existing key, against `origKeys` — the key set of `db.entries_dict`, i.e.
the keys of the *original* database. -/
def rekeyEntry (lib : Lib) (origKeys : List String) (e : Entry) :
    Except Unit Entry :=
  match entryString e lib.key_length (some 1) with
  | .error _ => .error ()
  | .ok newKeyOpt =>
    let new_key :=
      match newKeyOpt with
      | none => e.key
      | some k => if k = "" then e.key else k
    let final_key := if new_key ≠ e.key then appendDup origKeys new_key else new_key
    .ok { e with key := final_key }

/-- Fold of `rekey_according_to_bib` over the entries: build the new library
by `Library.add`, stopping at the first uncaught exception. -/
def rekeyGo (lib : Lib) (origKeys : List String) :
    List Entry → Library → Library × Bool
  | [], acc => (acc, true)
  | e :: rest, acc =>
    match rekeyEntry lib origKeys e with
    | .error _ => (acc, false)
    | .ok e' => rekeyGo lib origKeys rest (acc.add e')

/-- Embeds `Library.rekey_according_to_bib`.  On success `self._db` is
replaced by the new library; when the pass raises, the assignment never runs
(the partial in-place key mutations of the abandoned pass are not tracked,
as nothing downstream observes them). -/
def rekeyStage (lib : Lib) (st : OrgState) : StageResult :=
  let origKeys := st.db.keys
  let r := rekeyGo lib origKeys st.db.entries { }
  if r.2 then { st := { st with db := r.1 }, ok := true }
  else { st := st, ok := false }

/-- Embeds `Library.add_file`.  The default key is
`clean_string_for_key(file_path.stem)` lowercased; `str(file_path.resolve())`
is the path itself in the model (paths are canonical). -/
def addFile (db : Library) (fs : FS) (file : Path)
    (key : Option String) : Library :=
  let key0 :=
    match key with
    | none => clean_string (pyStem file)
    | some k => k
  let k := pyLower key0
  if ¬ fs.pathExists file then db
  else if ¬ fs.isFile file then db
  else if k ∈ db.keys then
    { db with
      entries := db.entries.map fun e => if e.key = k then e.setStr "file" file else e }
  else
    db.add { key := k, entry_type := "misc", fields := [("file", .str file)] }

/-- Embeds `Library.write_bib_file`.  Under dry run the three intended
actions are reported and nothing happens; otherwise the pre-existing backup
is deleted, the current bibliographic file (if any) is renamed to the backup
path, and the whole database is written to the bibliographic file path. -/
def writeBibFile (lib : Lib) (st : OrgState) : OrgState :=
  if lib.dry_run then
    { st with
      events := st.events ++
        [.dryRun ("Deleting " ++ lib.bibtex_bak_file ++ "."),
         .dryRun ("Moving " ++ lib.bibtex_file ++ " to " ++ lib.bibtex_bak_file ++ "."),
         .dryRun ("Writing " ++ lib.bibtex_file ++ ".")] }
  else
    let fs1 := st.fs.remove lib.bibtex_bak_file
    let fs2 :=
      if fs1.pathExists lib.bibtex_file then
        fs1.move lib.bibtex_file lib.bibtex_bak_file
      else fs1
    let fs3 := fs2.insert lib.bibtex_file (.file (.bib st.db.entries))
    { st with
      fs := fs3
      events := st.events ++
        [.info ("Deleting " ++ lib.bibtex_bak_file ++ "."),
         .info ("Moving " ++ lib.bibtex_file ++ " to " ++ lib.bibtex_bak_file ++ "."),
         .info ("Writing " ++ lib.bibtex_file ++ ".")] }

/-- Embeds the `org` subcommand (`src/bibmgr/bibmgr.py`): the fixed stage
order `create_missing_groups`, `create_missing_fields`,
`rename_according_to_bib`, `move_according_to_bib`,
`rekey_according_to_bib`, `write_bib_file`; an uncaught exception in a stage
aborts the run. -/
def orgPipeline (lib : Lib) (st : OrgState) : StageResult :=
  let st1 := createMissingGroups lib st
  let st2 := createMissingFields lib st1
  let r3 := renameStage lib st2
  if ¬ r3.ok then r3
  else
    let r4 := moveStage lib r3.st
    if ¬ r4.ok then r4
    else
      let r5 := rekeyStage lib r4.st
      if ¬ r5.ok then r5
      else { st := writeBibFile lib r5.st, ok := true }

/-! ## The spec's wording of component cleaning (for comparison)

The specification describes component cleaning as replacing internal
*whitespace* with underscores; the source replaces only the space character.
This second definition follows the spec's words and exists solely to be
compared with `clean_string`. -/

/-- Component cleaning as the specification words it: lowercased, internal
whitespace replaced with an underscore, any character outside `[a-z0-9_]`
removed. -/
def cleanStringSpecWording (s : String) : String :=
  String.mk
    (((s.toList.map Char.toLower).map fun c => if c.isWhitespace then '_' else c).filter
      validChar)

/-! ## Concrete fixtures used by the concrete runs -/

/-- Concrete configuration with dry run off. -/
def libOrg : Lib :=
  { bibtex_file := "/lib/refs.bib"
    storage_path := "/s"
    default_group := "g"
    filename_words := 2
    filename_length := 100
    key_length := 30
    mandatory_fields := []
    dry_run := false }

/-- Concrete configuration with dry run on. -/
def libDry : Lib :=
  { libOrg with dry_run := true }

/-- Entry keyed `x` deriving the key `jones_2019`. -/
def jonesX : Entry :=
  { key := "x"
    entry_type := "article"
    fields := [("author", .names [⟨["Jones"]⟩]), ("year", .str "2019")] }

/-- Entry keyed `y` deriving the key `jones_2019`. -/
def jonesY : Entry :=
  { jonesX with key := "y" }

/-- Entry already keyed `jones_2019` and deriving it again. -/
def jonesKeyed : Entry :=
  { jonesX with key := "jones_2019" }

/-- Filesystem with the storage root and default group directory present
and the two bibliographic paths absent. -/
def fsGroups : FS :=
  ⟨[("/s", .dir), ("/s/g", .dir)]⟩

/-- The record of the spec's §4.1 example. -/
def smithEntry : Entry :=
  { key := "smith"
    entry_type := "article"
    fields :=
      [("author", .names [⟨["Smith"]⟩]),
       ("year", .str "2020"),
       ("title", .str "Deep Learning Basics")] }

/-- Record whose title contains a tab character. -/
def tabTitleEntry : Entry :=
  { key := "t", entry_type := "misc", fields := [("title", .str "a\tb")] }

/-- Record linked to `dir/a.pdf` whose derived file name is `b`. -/
def collisionEntry : Entry :=
  { key := "c"
    entry_type := "misc"
    fields := [("title", .str "B"), ("file", .str "dir/a.pdf")] }

/-- Filesystem where both the record's file and its rename destination
exist. -/
def collisionFS : FS :=
  ⟨[("dir/a.pdf", .file (.raw "contents a")), ("dir/b.pdf", .file (.raw "contents b"))]⟩

/-- Rename stage run on the collision fixture. -/
def c3Run : StageResult :=
  renameStage libOrg { db := { entries := [collisionEntry] }, fs := collisionFS }

/-- Record with a valid linked file whose name has no extension. -/
def noExtEntry : Entry :=
  { key := "d"
    entry_type := "misc"
    fields := [("author", .names [⟨["Jones"]⟩]), ("file", .str "dir/README")] }

/-- Filesystem containing the extension-less file. -/
def noExtFS : FS :=
  ⟨[("dir/README", .file (.raw "readme"))]⟩

/-- Record with a valid linked file whose first author has no last-name
part. -/
def noLastEntry : Entry :=
  { key := "e"
    entry_type := "misc"
    fields := [("author", .names [⟨[]⟩]), ("file", .str "dir/x.pdf")] }

/-- Filesystem containing that record's file. -/
def noLastFS : FS :=
  ⟨[("dir/x.pdf", .file (.raw "x"))]⟩

/-- Rekey run for the key-uniqueness fixture: keys `x` and `y`, both
deriving `jones_2019`. -/
def c1Run : StageResult :=
  rekeyStage libOrg { db := { entries := [jonesX, jonesY] }, fs := ⟨[]⟩ }

/-- Rekey run for the collision-resolution counterexample: same database
shape, viewed against the claimed `_dup` outcome. -/
def c2CounterRun : StageResult :=
  rekeyStage libOrg { db := { entries := [{ jonesX with key := "p" }, { jonesX with key := "q" }] }, fs := ⟨[]⟩ }

/-- Rekey run where the first record already carries the derived key. -/
def c2AmendedRun : StageResult :=
  rekeyStage libOrg { db := { entries := [jonesKeyed, jonesY] }, fs := ⟨[]⟩ }

/-- Record with author last name `ln`, year `y`, and title `t` (the generic
shape of the deriver claims). -/
def aytEntry (k ty ln y t : String) : Entry :=
  { key := k
    entry_type := ty
    fields := [("author", .names [⟨[ln]⟩]), ("year", .str y), ("title", .str t)] }

/-- A string field that is missing or holds the empty string. -/
def strFieldMissingOrEmpty (e : Entry) (f : String) : Prop :=
  e.getField f = none ∨ e.getField f = some (.str "")

/-- An `author` field that is missing or empty (empty name list, or the
empty string written by `create_missing_fields` in the single-module
variant). -/
def authorMissingOrEmpty (e : Entry) : Prop :=
  e.getField "author" = none ∨ e.getField "author" = some (.names []) ∨
    e.getField "author" = some (.str "")

/-- Record with no fields at all. -/
def emptyEntry : Entry :=
  { key := "k", entry_type := "misc", fields := [] }

/-- Database holding one entry keyed `smith_2020` (for the `add_file`
witness). -/
def addDb : Library :=
  { entries := [{ key := "smith_2020", entry_type := "article", fields := [] }] }

/-- Filesystem holding the file to be linked by `add_file`. -/
def addFS : FS :=
  ⟨[("dir/f.pdf", .file (.raw "pdf"))]⟩

/-- Filesystem holding an old bibliographic file and a stale backup. -/
def c6FS : FS :=
  ⟨[("/lib/refs.bib", .file (.raw "old")), ("/lib/refs.bib.bak", .file (.raw "stale"))]⟩

/-- State on which the backup-swap witness runs. -/
def c6St : OrgState :=
  { db := { entries := [jonesKeyed] }, fs := c6FS }

/-- First organize run on the idempotence fixture. -/
def c8Run1 : StageResult :=
  orgPipeline libOrg { db := { entries := [jonesKeyed, jonesY] }, fs := fsGroups }

/-- Second organize run, on the first run's output state. -/
def c8Run2 : StageResult :=
  orgPipeline libOrg c8Run1.st

/-! ## Helper lemmas -/

theorem key_setField (e : Entry) (f : String) (v : FieldValue) :
    (e.setField f v).key = e.key := rfl

theorem key_setStr (e : Entry) (f s : String) :
    (e.setStr f s).key = e.key := rfl

theorem isFile_pathExists (fs : FS) (p : Path) (h : fs.isFile p = true) :
    fs.pathExists p = true := by
  unfold FS.isFile at h
  unfold FS.pathExists
  cases hl : fs.lookup p with
  | none => rw [hl] at h; simp at h
  | some n => simp

theorem bak_ne_bib (lib : Lib) : lib.bibtex_bak_file ≠ lib.bibtex_file := by
  intro h
  have hlen := congrArg String.length h
  simp [Lib.bibtex_bak_file, String.length_append] at hlen
  exact absurd hlen (by decide)

theorem lookupNodes_removeNodes_ne (l : List (Path × FsNode)) {p q : Path}
    (h : q ≠ p) : lookupNodes (removeNodes l p) q = lookupNodes l q := by
  induction l with
  | nil => rfl
  | cons a t ih =>
    obtain ⟨k, v⟩ := a
    by_cases hk : k = p
    · subst hk
      simpa [removeNodes, lookupNodes, h] using ih
    · by_cases hq : q = k
      · subst hq
        simp [removeNodes, lookupNodes, hk]
      · simpa [removeNodes, lookupNodes, hk, hq] using ih

theorem lookup_remove_ne (fs : FS) {p q : Path} (h : q ≠ p) :
    (fs.remove p).lookup q = fs.lookup q :=
  lookupNodes_removeNodes_ne fs.nodes h

theorem lookupNodes_removeNodes_self (l : List (Path × FsNode)) (p : Path) :
    lookupNodes (removeNodes l p) p = none := by
  induction l with
  | nil => rfl
  | cons a t ih =>
    obtain ⟨k, v⟩ := a
    by_cases hk : k = p
    · simpa [removeNodes, lookupNodes, hk] using ih
    · have hpk : p ≠ k := fun hpk => hk hpk.symm
      simpa [removeNodes, lookupNodes, hk, hpk] using ih

theorem lookup_remove_self (fs : FS) (p : Path) :
    (fs.remove p).lookup p = none :=
  lookupNodes_removeNodes_self fs.nodes p

theorem lookup_insert_self (fs : FS) (p : Path) (n : FsNode) :
    (fs.insert p n).lookup p = some n := by
  simp [FS.insert, FS.lookup, lookupNodes]

theorem lookup_insert_ne (fs : FS) {p q : Path} (n : FsNode) (h : q ≠ p) :
    (fs.insert p n).lookup q = fs.lookup q := by
  have h2 : lookupNodes (removeNodes fs.nodes p) q = lookupNodes fs.nodes q :=
    lookupNodes_removeNodes_ne fs.nodes h
  simpa [FS.insert, FS.lookup, FS.remove, lookupNodes, h] using h2

/-! ## Claim theorems -/

/-- C1: refuted on the code.  On the database whose entries are keyed `x`
and `y` and both derive `jones_2019`, `rekey_according_to_bib` assigns the
key `jones_2019` to *both* records (the collision loop only consults the
original database's key index, which contains neither derived key), so two
records share a key during the pipeline run; the second record is then
shunted aside as a duplicate-key failed block instead of receiving a `_dup`
suffix, contradicting the method's own docstring. -/
theorem c1_rekey_assigns_shared_key :
    c1Run.ok = true ∧
    (c1Run.st.db.entries ++ c1Run.st.db.failed).map Entry.key =
      ["jones_2019", "jones_2019"] ∧
    ¬ ((c1Run.st.db.entries ++ c1Run.st.db.failed).map Entry.key).Nodup ∧
    c1Run.st.db.entries.map Entry.key = ["jones_2019"] ∧
    c1Run.st.db.failed.map Entry.key = ["jones_2019"] := by
  decide

/-- C2: counterexample.  Two records (keyed `p` and `q`) that both derive
the key `jones_2019` do *not* end up with final keys `jones_2019` and
`jones_2019_dup`: the collision check runs against the original database's
keys (`p`, `q`), finds no collision, and assigns `jones_2019` to both. -/
theorem c2_counterexample_no_dup_suffix :
    (c2CounterRun.st.db.entries ++ c2CounterRun.st.db.failed).map Entry.key =
      ["jones_2019", "jones_2019"] ∧
    (["jones_2019", "jones_2019"] : List String) ≠
      ["jones_2019", "jones_2019_dup"] := by
  decide

/-- C2 (amended): in `rekey_according_to_bib` the `_dup` collision loop runs
only for records whose derived key differs from their existing key, and it
checks membership against the key set of the *original* database; two
records that both derive `jones_2019` end up with final keys `jones_2019`
and `jones_2019_dup` in database iteration order when the first record's
existing key is already `jones_2019`. -/
theorem c2_amended_dup_suffix_against_original_keys :
    c2AmendedRun.ok = true ∧
    c2AmendedRun.st.db.entries.map Entry.key = ["jones_2019", "jones_2019_dup"] ∧
    c2AmendedRun.st.db.failed = [] ∧
    appendDup ["jones_2019", "y"] "jones_2019" = "jones_2019_dup" := by
  decide

/-- C4: refuted on the code.  The rename stage raises an uncaught
`IndexError` — modelled by `ok = false` — when a record's valid linked file
has a name with no extension (`path.suffixes[-1]` in
`utilities.get_extension`), and likewise when the first author's last-name
part list is empty (`entry['author'][0].last[0]` in
`Library._entry_string`); the batch is aborted instead of the record being
skipped with a logged reason. -/
theorem c4_rename_stage_aborts :
    get_extension "dir/README" = none ∧
    (renameStage libOrg { db := { entries := [noExtEntry] }, fs := noExtFS }).ok
      = false ∧
    entryString noLastEntry libOrg.filename_length (some libOrg.filename_words)
      = .error () ∧
    (renameStage libOrg { db := { entries := [noLastEntry] }, fs := noLastFS }).ok
      = false :=
  ⟨rfl, rfl, rfl, rfl⟩

/-- C8: refuted on the code.  Running the organize pipeline twice on the
database whose records are keyed `jones_2019` and `y` and both derive
`jones_2019` changes a key on the second run: the first run produces keys
`jones_2019`, `jones_2019_dup`, but the second run, whose collision check
walks the (new) original key set `jones_2019`, `jones_2019_dup`, rekeys the
second record to `jones_2019_dup_dup`. -/
theorem c8_second_run_changes_keys :
    c8Run1.ok = true ∧
    c8Run2.ok = true ∧
    c8Run1.st.db.keys = ["jones_2019", "jones_2019_dup"] ∧
    c8Run2.st.db.keys = ["jones_2019", "jones_2019_dup_dup"] ∧
    c8Run2.st.db.keys ≠ c8Run1.st.db.keys := by
  decide

/-- C3: counterexample.  On the record linked to `dir/a.pdf` whose rename
destination `dir/b.pdf` already exists, the rename stage skips the
relocation (the filesystem is unchanged) yet the record's `file` field ends
up holding `dir/b.pdf`, not its prior value `dir/a.pdf` — the trailing
`entry['file'] = str(new_path)` runs on the skip branch too, so the record
is *not* left in its prior state. -/
theorem c3_counterexample_file_field_updated_on_skip :
    c3Run.ok = true ∧
    c3Run.st.fs = collisionFS ∧
    collisionEntry.getStr "file" = some "dir/a.pdf" ∧
    c3Run.st.db.entries.map (fun e => e.getStr "file") = [some "dir/b.pdf"] ∧
    (some "dir/b.pdf" : Option String) ≠ some "dir/a.pdf" := by
  decide

/-- C3 (amended): whenever a rename or move relocation is skipped because
the destination already exists, or suppressed by dry run, the file itself is
not touched (the filesystem is returned unchanged) but the record is *not*
left in its prior state: its `file` field is updated to the destination path
the relocation would have produced. -/
theorem c3_amended_skip_still_updates_file_field :
    (∀ (lib : Lib) (fs : FS) (e : Entry) (np : Path),
      renameTarget lib fs e = .ok (some np) →
      (e.getStr "file").getD "" ≠ np →
      (fs.pathExists np = true ∨ lib.dry_run = true) →
      ∃ evs, renameEntry lib fs e = some (e.setStr "file" np, fs, evs)) ∧
    (∀ (lib : Lib) (fs : FS) (e : Entry),
      entryFileIsValid fs e = true →
      ((defaultGroups lib e).getStr "file").getD "" ≠ moveTargetPath lib e →
      (fs.pathExists (moveTargetPath lib e) = true ∨ lib.dry_run = true) →
      ∃ evs, moveEntry lib fs e =
        some ((defaultGroups lib e).setStr "file" (moveTargetPath lib e), fs, evs)) := by
  constructor
  · intro lib fs e np ht hne hskip
    rcases hskip with hex | hdry
    · exact ⟨[], by simp [renameEntry, ht, hne, hex]⟩
    · by_cases hex : fs.pathExists np = true
      · exact ⟨[], by simp [renameEntry, ht, hne, hex]⟩
      · refine ⟨[Event.dryRun ("Moving " ++ (e.getStr "file").getD "" ++ " to " ++ np ++ ".")], ?_⟩
        simp [renameEntry, ht, hne, hex, moveFile, hdry]
  · intro lib fs e hv hne hskip
    rcases hskip with hex | hdry
    · exact ⟨[], by simp [moveEntry, hv, hne, hex]⟩
    · by_cases hex : fs.pathExists (moveTargetPath lib e) = true
      · exact ⟨[], by simp [moveEntry, hv, hne, hex]⟩
      · refine ⟨[Event.dryRun ("Moving " ++ ((defaultGroups lib e).getStr "file").getD ""
          ++ " to " ++ moveTargetPath lib e ++ ".")], ?_⟩
        simp [moveEntry, hv, hne, hex, moveFile, hdry]

/-- C3 (witness): the amended statement instantiated on the collision
fixture. -/
theorem c3_amended_witness :
    renameTarget libOrg collisionFS collisionEntry = .ok (some "dir/b.pdf") ∧
    (∃ evs, renameEntry libOrg collisionFS collisionEntry =
      some (collisionEntry.setStr "file" "dir/b.pdf", collisionFS, evs)) :=
  ⟨rfl,
    c3_amended_skip_still_updates_file_field.1 libOrg collisionFS collisionEntry
      "dir/b.pdf" rfl (by decide) (Or.inl (by decide))⟩

theorem moveFile_dry (lib : Lib) (h : lib.dry_run = true) (fs : FS) (o n : Path) :
    moveFile lib fs o n = (fs, [Event.dryRun ("Moving " ++ o ++ " to " ++ n ++ ".")]) := by
  simp [moveFile, h]

theorem renameEntry_fs_dry (lib : Lib) (h : lib.dry_run = true) (fs : FS)
    (e e' : Entry) (fs' : FS) (evs : List Event)
    (hr : renameEntry lib fs e = some (e', fs', evs)) : fs' = fs := by
  cases ht : renameTarget lib fs e with
  | error u => simp [renameEntry, ht] at hr
  | ok o =>
    cases o with
    | none =>
      simp [renameEntry, ht] at hr
      exact hr.2.1.symm
    | some np =>
      by_cases h1 : (e.getStr "file").getD "" = np
      · simp [renameEntry, ht, h1] at hr
        exact hr.2.1.symm
      · by_cases h2 : fs.pathExists np = true
        · simp [renameEntry, ht, h1, h2] at hr
          exact hr.2.1.symm
        · simp [renameEntry, ht, h1, h2, moveFile, h] at hr
          exact hr.2.1.symm

theorem moveEntry_fs_dry (lib : Lib) (h : lib.dry_run = true) (fs : FS)
    (e e' : Entry) (fs' : FS) (evs : List Event)
    (hr : moveEntry lib fs e = some (e', fs', evs)) : fs' = fs := by
  by_cases hv : entryFileIsValid fs e = true
  · by_cases h1 : ((defaultGroups lib e).getStr "file").getD "" = moveTargetPath lib e
    · simp [moveEntry, hv, h1] at hr
      exact hr.2.1.symm
    · by_cases h2 : fs.pathExists (moveTargetPath lib e) = true
      · simp [moveEntry, hv, h1, h2] at hr
        exact hr.2.1.symm
      · simp [moveEntry, hv, h1, h2, moveFile, h] at hr
        exact hr.2.1.symm
  · simp [moveEntry, hv] at hr
    exact hr.2.1.symm

theorem runEntries_fs_eq (step : FS → Entry → Option (Entry × FS × List Event))
    (hstep : ∀ fs e r, step fs e = some r → r.2.1 = fs) :
    ∀ (l : List Entry) (fs : FS), (runEntries step l fs).2.1 = fs := by
  intro l
  induction l with
  | nil => intro fs; rfl
  | cons e rest ih =>
    intro fs
    cases hs : step fs e with
    | none => simp [runEntries, hs]
    | some r =>
      have hfs : r.2.1 = fs := hstep fs e r hs
      obtain ⟨e', fs', evs⟩ := r
      simp only at hfs
      simp [runEntries, hs, ih, hfs]

theorem createMissingGroupsEntry_fs_dry (lib : Lib) (h : lib.dry_run = true)
    (acc : FS × List Event) (e : Entry) :
    (createMissingGroupsEntry lib acc e).1 = acc.1 := by
  obtain ⟨fs, evs⟩ := acc
  by_cases hex : fs.pathExists (groupPathOf lib e) = true
  · simp [createMissingGroupsEntry, hex]
  · simp [createMissingGroupsEntry, hex, h]

theorem foldl_groups_fs_dry (lib : Lib) (h : lib.dry_run = true) :
    ∀ (l : List Entry) (fs : FS) (evs : List Event),
      (l.foldl (createMissingGroupsEntry lib) (fs, evs)).1 = fs := by
  intro l
  induction l with
  | nil => intro fs evs; rfl
  | cons e t ih =>
    intro fs evs
    have h1 := createMissingGroupsEntry_fs_dry lib h (fs, evs) e
    rcases hc : createMissingGroupsEntry lib (fs, evs) e with ⟨fs1, evs1⟩
    rw [hc] at h1
    simp only at h1
    subst h1
    simp [List.foldl, hc, ih]

theorem rekeyStage_fs (lib : Lib) (st : OrgState) :
    (rekeyStage lib st).st.fs = st.fs := by
  cases hres : (rekeyGo lib st.db.keys st.db.entries { entries := [], failed := [] }).2 with
  | false => simp [rekeyStage, hres]
  | true => simp [rekeyStage, hres]

theorem writeBibFile_dry (lib : Lib) (st : OrgState) (h : lib.dry_run = true) :
    writeBibFile lib st =
      { st with
        events := st.events ++
          [Event.dryRun ("Deleting " ++ lib.bibtex_bak_file ++ "."),
           Event.dryRun ("Moving " ++ lib.bibtex_file ++ " to " ++ lib.bibtex_bak_file ++ "."),
           Event.dryRun ("Writing " ++ lib.bibtex_file ++ ".")] } := by
  simp [writeBibFile, h]

/-- C5: with `dry_run` set, `create_missing_groups`,
`rename_according_to_bib`, `move_according_to_bib`, and `write_bib_file`
(and the whole organize pipeline) leave the filesystem untouched for every
input database and filesystem state, while each suppressed action is still
individually reported as a dry-run intent. -/
theorem c5_dry_run_purity (lib : Lib) (st : OrgState) (h : lib.dry_run = true) :
    (createMissingGroups lib st).fs = st.fs ∧
    (renameStage lib st).st.fs = st.fs ∧
    (moveStage lib st).st.fs = st.fs ∧
    (writeBibFile lib st).fs = st.fs ∧
    (orgPipeline lib st).st.fs = st.fs ∧
    (writeBibFile lib st).events = st.events ++
      [Event.dryRun ("Deleting " ++ lib.bibtex_bak_file ++ "."),
       Event.dryRun ("Moving " ++ lib.bibtex_file ++ " to " ++ lib.bibtex_bak_file ++ "."),
       Event.dryRun ("Writing " ++ lib.bibtex_file ++ ".")] ∧
    (∀ (fs : FS) (o n : Path), moveFile lib fs o n =
      (fs, [Event.dryRun ("Moving " ++ o ++ " to " ++ n ++ ".")])) ∧
    (∀ (fs : FS) (evs : List Event) (e : Entry),
      fs.pathExists (groupPathOf lib e) = false →
      createMissingGroupsEntry lib (fs, evs) e =
        (fs, evs ++ [Event.dryRun ("Creating " ++ groupPathOf lib e ++ ".")])) := by
  have hg : ∀ s : OrgState, (createMissingGroups lib s).fs = s.fs := fun s =>
    foldl_groups_fs_dry lib h s.db.entries s.fs s.events
  have hf : ∀ s : OrgState, (createMissingFields lib s).fs = s.fs := fun _ => rfl
  have hrstep : ∀ fs e r, renameEntry lib fs e = some r → r.2.1 = fs := by
    intro fs e r hsome
    obtain ⟨e', fs', evs⟩ := r
    exact renameEntry_fs_dry lib h fs e e' fs' evs hsome
  have hmstep : ∀ fs e r, moveEntry lib fs e = some r → r.2.1 = fs := by
    intro fs e r hsome
    obtain ⟨e', fs', evs⟩ := r
    exact moveEntry_fs_dry lib h fs e e' fs' evs hsome
  have hr : ∀ s : OrgState, (renameStage lib s).st.fs = s.fs := fun s =>
    runEntries_fs_eq _ hrstep s.db.entries s.fs
  have hm : ∀ s : OrgState, (moveStage lib s).st.fs = s.fs := fun s =>
    runEntries_fs_eq _ hmstep s.db.entries s.fs
  have hk : ∀ s : OrgState, (rekeyStage lib s).st.fs = s.fs := fun s =>
    rekeyStage_fs lib s
  have hw : ∀ s : OrgState, (writeBibFile lib s).fs = s.fs := by
    intro s
    rw [writeBibFile_dry lib s h]
  refine ⟨hg st, hr st, hm st, hw st, ?_, ?_, ?_, ?_⟩
  · by_cases h3 :
      (renameStage lib (createMissingFields lib (createMissingGroups lib st))).ok = true
    · by_cases h4 :
        (moveStage lib
          (renameStage lib (createMissingFields lib (createMissingGroups lib st))).st).ok
            = true
      · by_cases h5 :
          (rekeyStage lib
            (moveStage lib
              (renameStage lib
                (createMissingFields lib (createMissingGroups lib st))).st).st).ok = true
        · simp [orgPipeline, h3, h4, h5, hw, hk, hm, hr, hf, hg]
        · simp [orgPipeline, h3, h4, h5, hk, hm, hr, hf, hg]
      · simp [orgPipeline, h3, h4, hm, hr, hf, hg]
    · simp [orgPipeline, h3, hr, hf, hg]
  · rw [writeBibFile_dry lib st h]
  · intro fs o n
    exact moveFile_dry lib h fs o n
  · intro fs evs e hex
    simp [createMissingGroupsEntry, hex, h]

/-- C5 (witness): dry-run purity instantiated on a concrete configuration
and state. -/
theorem c5_dry_run_purity_witness :
    libDry.dry_run = true ∧
    (orgPipeline libDry { db := { entries := [jonesKeyed, jonesY] }, fs := fsGroups }).st.fs
      = fsGroups :=
  ⟨rfl,
    (c5_dry_run_purity libDry { db := { entries := [jonesKeyed, jonesY] }, fs := fsGroups }
      rfl).2.2.2.2.1⟩

theorem writeBibFile_fs_nodry (lib : Lib) (st : OrgState)
    (hdry : lib.dry_run = false) :
    (writeBibFile lib st).fs =
      (if (st.fs.remove lib.bibtex_bak_file).pathExists lib.bibtex_file then
        (st.fs.remove lib.bibtex_bak_file).move lib.bibtex_file lib.bibtex_bak_file
       else st.fs.remove lib.bibtex_bak_file).insert lib.bibtex_file
        (.file (.bib st.db.entries)) := by
  simp [writeBibFile, hdry]

/-- C6: with `dry_run` off, `write_bib_file` performs the backup swap: after
the call, if the bibliographic file previously held content `c`, that exact
content is found at the backup path and the bibliographic file holds the
serialized new database; if the bibliographic file did not exist, the rename
is skipped, the stale backup is gone, and the new database is still
written. -/
theorem c6_backup_swap (lib : Lib) (st : OrgState) (hdry : lib.dry_run = false) :
    (∀ c : FileContent,
      st.fs.lookup lib.bibtex_file = some (.file c) →
      (writeBibFile lib st).fs.lookup lib.bibtex_bak_file = some (.file c) ∧
      (writeBibFile lib st).fs.lookup lib.bibtex_file =
        some (.file (.bib st.db.entries))) ∧
    (st.fs.lookup lib.bibtex_file = none →
      (writeBibFile lib st).fs.lookup lib.bibtex_bak_file = none ∧
      (writeBibFile lib st).fs.lookup lib.bibtex_file =
        some (.file (.bib st.db.entries))) := by
  have hne : lib.bibtex_bak_file ≠ lib.bibtex_file := bak_ne_bib lib
  have hne' : lib.bibtex_file ≠ lib.bibtex_bak_file := fun hx => hne hx.symm
  rw [writeBibFile_fs_nodry lib st hdry]
  constructor
  · intro c hc
    have h1 : (st.fs.remove lib.bibtex_bak_file).lookup lib.bibtex_file
        = some (.file c) := by
      rw [lookup_remove_ne st.fs hne']
      exact hc
    have hex : (st.fs.remove lib.bibtex_bak_file).pathExists lib.bibtex_file = true := by
      unfold FS.pathExists
      rw [h1]
      rfl
    rw [if_pos hex]
    have hmv : (st.fs.remove lib.bibtex_bak_file).move lib.bibtex_file lib.bibtex_bak_file
        = ((st.fs.remove lib.bibtex_bak_file).remove lib.bibtex_file).insert
            lib.bibtex_bak_file (.file c) := by
      unfold FS.move
      rw [h1]
    rw [hmv]
    constructor
    · rw [lookup_insert_ne _ _ hne, lookup_insert_self]
    · rw [lookup_insert_self]
  · intro hc
    have h1 : (st.fs.remove lib.bibtex_bak_file).lookup lib.bibtex_file = none := by
      rw [lookup_remove_ne st.fs hne']
      exact hc
    have hex : (st.fs.remove lib.bibtex_bak_file).pathExists lib.bibtex_file = false := by
      unfold FS.pathExists
      rw [h1]
      rfl
    rw [if_neg (by simp [hex])]
    constructor
    · rw [lookup_insert_ne _ _ hne, lookup_remove_self]
    · rw [lookup_insert_self]

/-- C6 (witness): the backup swap instantiated on a filesystem holding an
old bibliographic file and a stale backup. -/
theorem c6_backup_swap_witness :
    libOrg.dry_run = false ∧
    c6St.fs.lookup libOrg.bibtex_file = some (.file (.raw "old")) ∧
    ((writeBibFile libOrg c6St).fs.lookup libOrg.bibtex_bak_file
        = some (.file (.raw "old")) ∧
      (writeBibFile libOrg c6St).fs.lookup libOrg.bibtex_file
        = some (.file (.bib [jonesKeyed]))) :=
  ⟨rfl, rfl, (c6_backup_swap libOrg c6St rfl).1 (.raw "old") rfl⟩

/-- C7: counterexample.  The cleaning step replaces only the space
character, not all whitespace: on the title containing a tab the deriver
produces `ab` (the tab is removed, not replaced by an underscore), while the
claim's description of the cleaning (whitespace replaced with `_`) yields
`a_b`. -/
theorem c7_counterexample_tab_not_underscored :
    entryString tabTitleEntry 100 (some 2) = .ok (some "ab") ∧
    clean_string "a\tb" = "ab" ∧
    cleanStringSpecWording "a\tb" = "a_b" ∧
    ("ab" : String) ≠ "a_b" :=
  ⟨rfl, rfl, rfl, by decide⟩

/-- C7 (amended): the deriver behaves as claimed with "whitespace" read as
the space character: the Smith/2020/"Deep Learning Basics" record derives
`smith_2020_deep_learning` (max length 100, 2 title words) and `smith_2020`
(max length 10, 1 title word); and in general, for a record whose author,
year, and title are present and non-empty, each component is lowercased with
spaces replaced by `_` and all other characters outside `[a-z0-9_]` removed,
the components are joined with `_`, and the result is truncated to the
maximum length. -/
theorem c7_amended_deriver_components :
    entryString smithEntry 100 (some 2) = .ok (some "smith_2020_deep_learning") ∧
    entryString smithEntry 10 (some 1) = .ok (some "smith_2020") ∧
    ∀ (k ty ln y t : String) (L w : Nat), y ≠ "" → t ≠ "" →
      entryString (aytEntry k ty ln y t) L (some w) =
        .ok (some (pyTake (String.intercalate "_"
          [clean_string ln, clean_string y,
           clean_string (String.intercalate "_" ((pySplitChar ' ' t).take w))]) L)) := by
  refine ⟨rfl, rfl, ?_⟩
  intro k ty ln y t L w hy ht
  have ha2 : (aytEntry k ty ln y t).getField "author" = some (.names [⟨[ln]⟩]) := rfl
  have hy2 : (aytEntry k ty ln y t).getField "year" = some (.str y) := rfl
  have ht2 : (aytEntry k ty ln y t).getField "title" = some (.str t) := rfl
  simp [entryString, ha2, hy2, ht2, hy, ht]

/-- C7 (amended, witness): the general component statement instantiated on
Jones/2019/"Deep Learning". -/
theorem c7_amended_witness :
    (("2019" : String) ≠ "" ∧ ("Deep Learning" : String) ≠ "") ∧
    entryString (aytEntry "k" "article" "Jones" "2019" "Deep Learning") 100 (some 1) =
      .ok (some (pyTake (String.intercalate "_"
        [clean_string "Jones", clean_string "2019",
         clean_string (String.intercalate "_"
           ((pySplitChar ' ' "Deep Learning").take 1))]) 100)) :=
  ⟨⟨by decide, by decide⟩,
    c7_amended_deriver_components.2.2 "k" "article" "Jones" "2019" "Deep Learning"
      100 1 (by decide) (by decide)⟩

/-- C9: for every record whose author, year, and title fields are all
missing or empty, and for every maximum length and title-word setting, the
deriver returns the empty sentinel `None` — modelled as `Option.none`, a
value distinct from every string, including the empty string. -/
theorem c9_empty_sentinel (e : Entry) (L : Nat) (w : Option Nat)
    (ha : authorMissingOrEmpty e) (hy : strFieldMissingOrEmpty e "year")
    (ht : strFieldMissingOrEmpty e "title") :
    entryString e L w = .ok none ∧
    ∀ s : String, (none : Option String) ≠ some s := by
  constructor
  · rcases ha with ha | ha | ha <;> rcases hy with hy | hy <;> rcases ht with ht | ht <;>
      simp [entryString, ha, hy, ht]
  · intro s
    simp

/-- C9 (witness): the sentinel statement instantiated on the record with no
fields. -/
theorem c9_empty_sentinel_witness :
    (authorMissingOrEmpty emptyEntry ∧ strFieldMissingOrEmpty emptyEntry "year" ∧
      strFieldMissingOrEmpty emptyEntry "title") ∧
    entryString emptyEntry 50 (some 1) = .ok none :=
  ⟨⟨Or.inl rfl, Or.inl rfl, Or.inl rfl⟩,
    (c9_empty_sentinel emptyEntry 50 (some 1) (Or.inl rfl) (Or.inl rfl) (Or.inl rfl)).1⟩

theorem keys_map_setStr (db : Library) (k f s : String) :
    (db.entries.map fun e => if e.key = k then e.setStr f s else e).map Entry.key
      = db.keys := by
  unfold Library.keys
  rw [List.map_map]
  apply List.map_congr_left
  intro a ha
  by_cases hak : a.key = k <;> simp [hak, key_setStr]

/-- C10: `add_file` leaves the database unchanged when the path does not
exist or is not a regular file; when the lowercased key (given, or derived
from the file stem) already belongs to an entry it only rewrites that
entry's `file` field to the (canonical) path, changing no key and adding no
entry; and only when the key is absent does it append a fresh `misc` entry
holding the key and the path — so a duplicate key is never introduced. -/
theorem c10_add_file (db : Library) (fs : FS) (file : Path) (key : Option String) :
    ((fs.pathExists file = false ∨ fs.isFile file = false) →
      addFile db fs file key = db) ∧
    (∀ k, k = pyLower (match key with
        | none => clean_string (pyStem file)
        | some s => s) →
      fs.isFile file = true →
      (k ∈ db.keys →
        (addFile db fs file key).entries =
          db.entries.map (fun e => if e.key = k then e.setStr "file" file else e) ∧
        (addFile db fs file key).keys = db.keys ∧
        (addFile db fs file key).failed = db.failed) ∧
      (k ∉ db.keys →
        (addFile db fs file key).entries = db.entries ++
          [{ key := k, entry_type := "misc", fields := [("file", .str file)] }] ∧
        (addFile db fs file key).keys = db.keys ++ [k] ∧
        (db.keys.Nodup → (addFile db fs file key).keys.Nodup))) := by
  constructor
  · intro h
    rcases h with h | h
    · simp [addFile, h]
    · by_cases hp : fs.pathExists file = true
      · simp [addFile, hp, h]
      · simp [addFile, hp]
  · intro k hk hisf
    have hp : fs.pathExists file = true := isFile_pathExists fs file hisf
    have hbody : addFile db fs file key =
        (if k ∈ db.keys then
          { db with
            entries := db.entries.map fun e =>
              if e.key = k then e.setStr "file" file else e }
         else
          db.add { key := k, entry_type := "misc", fields := [("file", .str file)] }) := by
      subst hk
      simp [addFile, hp, hisf]
    constructor
    · intro hmem
      rw [hbody, if_pos hmem]
      refine ⟨rfl, ?_, rfl⟩
      unfold Library.keys
      exact keys_map_setStr db k "file" file
    · intro hmem
      rw [hbody, if_neg hmem]
      have hkeys : (db.add
          { key := k, entry_type := "misc",
            fields := [("file", FieldValue.str file)] }).keys = db.keys ++ [k] := by
        unfold Library.keys
        simp [Library.add, hmem]
      refine ⟨?_, hkeys, ?_⟩
      · simp [Library.add, hmem]
      · intro hnd
        rw [hkeys]
        exact List.Nodup.append hnd (List.nodup_singleton _)
          (fun a hain hak => by
            simp at hak
            subst hak
            exact hmem hain)

/-- C10 (witness): the update branch instantiated on a database already
holding the lowercased key. -/
theorem c10_add_file_witness :
    (addFS.isFile "dir/f.pdf" = true ∧ ("smith_2020" : String) ∈ addDb.keys) ∧
    (addFile addDb addFS "dir/f.pdf" (some "Smith_2020")).entries =
      addDb.entries.map
        (fun e => if e.key = "smith_2020" then e.setStr "file" "dir/f.pdf" else e) :=
  ⟨⟨by decide, by decide⟩,
    (((c10_add_file addDb addFS "dir/f.pdf" (some "Smith_2020")).2 "smith_2020"
      (by decide) (by decide)).1 (by decide)).1⟩

end Bibmgr
